import Mathlib

/-!
Verification of the blackjack engine (packages blackjack and deck).

The Go sources are shallowly embedded: pure functions become Lean
functions, methods that mutate a struct become functions from the old
value (plus the owning player's chip balance where the Go code reaches
it through the hand's back pointer) to the new value, and fallible
operations return Except.  Go ints are modelled as Int (no arithmetic
in the engine comes near 64-bit overflow); Go integer division, which
truncates toward zero, is modelled as Int.tdiv.  Timestamps recorded in
the action log are real time and are omitted from the model; nothing in
the engine reads them back.
-/

namespace Blackjack


/-- Card rank, mirroring the rank constants of the external cards
package (numbered ranks carry their face value). -/
inductive Rank where
  | two
  | three
  | four
  | five
  | six
  | seven
  | eight
  | nine
  | ten
  | jack
  | queen
  | king
  | ace
deriving DecidableEq

/-- Card suit, mirroring the suit constants of the external cards package. -/
inductive Suit where
  | clubs
  | diamonds
  | hearts
  | spades
deriving DecidableEq

/-- A playing card: rank and suit.  Suit never influences values. -/
structure Card where
  rank : Rank
  suit : Suit
deriving DecidableEq

/-- The numeric value Go obtains from `int(rank)` in the default branch
of the valuation switch; that branch is only reached for the numbered
ranks two through ten, so the value given to the face ranks here is
irrelevant (they are handled by earlier switch cases). -/
def numericValue (r : Rank) : Int :=
  match r with
  | Rank.two => 2
  | Rank.three => 3
  | Rank.four => 4
  | Rank.five => 5
  | Rank.six => 6
  | Rank.seven => 7
  | Rank.eight => 8
  | Rank.nine => 9
  | Rank.ten => 10
  | _ => 0

/-- One step of the accumulation loop in Hand.Value (hand.go lines
167-191): faces add 10, an Ace adds 11 and is counted, numbered ranks
add their face value. -/
def addCardValue (acc : Int × Nat) (c : Card) : Int × Nat :=
  match c.rank with
  | Rank.jack => (acc.1 + 10, acc.2)
  | Rank.queen => (acc.1 + 10, acc.2)
  | Rank.king => (acc.1 + 10, acc.2)
  | Rank.ace => (acc.1 + 11, acc.2 + 1)
  | r => (acc.1 + numericValue r, acc.2)

/-- The first loop of Hand.Value: total with every Ace counted as 11,
together with the number of Aces seen. -/
def valueAndAces (cs : List Card) : Int × Nat :=
  cs.foldl addCardValue (0, 0)

/-- The adjustment loop of Hand.Value: while the total exceeds 21 and
an Ace is still counted as 11, re-count one Ace as 1. -/
def adjustForAces (aces : Nat) (value : Int) : Int :=
  match aces with
  | 0 => value
  | a + 1 => if 21 < value then adjustForAces a (value - 10) else value

/-- Hand.Value (hand.go lines 167-191) on the card list of a hand. -/
def handValue (cs : List Card) : Int :=
  adjustForAces (valueAndAces cs).2 (valueAndAces cs).1

/-- Value of a single card when every Ace is counted as 11 (the claim's
upper end of the interval). -/
def highCardValue (r : Rank) : Int :=
  match r with
  | Rank.jack => 10
  | Rank.queen => 10
  | Rank.king => 10
  | Rank.ace => 11
  | r => numericValue r

/-- Value of a single card when every Ace is counted as 1 (the claim's
lower end of the interval). -/
def lowCardValue (r : Rank) : Int :=
  match r with
  | Rank.jack => 10
  | Rank.queen => 10
  | Rank.king => 10
  | Rank.ace => 1
  | r => numericValue r

/-- Sum of the hand with every Ace counted as 11. -/
def sumAcesHigh (cs : List Card) : Int :=
  (cs.map (fun c => highCardValue c.rank)).sum

/-- Sum of the hand with every Ace counted as 1. -/
def sumAcesLow (cs : List Card) : Int :=
  (cs.map (fun c => lowCardValue c.rank)).sum

/-- Number of Aces in the hand. -/
def numAces (cs : List Card) : Nat :=
  cs.countP (fun c => c.rank == Rank.ace)

/-- Ace, nine, five: soft 15 (the Ace must fall back to 1). -/
def c1HandA : List Card :=
  [⟨Rank.ace, Suit.spades⟩, ⟨Rank.nine, Suit.hearts⟩, ⟨Rank.five, Suit.clubs⟩]

/-- King, queen, five: 25, busted with no Ace to reduce. -/
def c1HandB : List Card :=
  [⟨Rank.king, Suit.spades⟩, ⟨Rank.queen, Suit.hearts⟩, ⟨Rank.five, Suit.clubs⟩]

/-- A permutation of c1HandA. -/
def c1HandAPerm : List Card :=
  [⟨Rank.five, Suit.clubs⟩, ⟨Rank.nine, Suit.hearts⟩, ⟨Rank.ace, Suit.spades⟩]

/-- ActionType constants (hand.go lines 11-21). -/
inductive ActionType where
  | deal
  | hit
  | stand
  | double
  | split
  | surrender
deriving DecidableEq

/-- An entry of the audit log (hand.go Action).  The Timestamp field is
wall-clock time and is omitted: nothing in the engine reads it back. -/
structure Action where
  type : ActionType
  card : Option Card
  details : String
deriving DecidableEq

/-- Hand (hand.go lines 31-42).  The Go struct's back pointer to the
owning player is not a field here; operations that follow it receive
the relevant part of the player's state as an argument. -/
structure Hand where
  cards : List Card
  isSplit : Bool
  isActive : Bool
  isStood : Bool
  isSurrendered : Bool
  actions : List Action
  bet : Int
  winnings : Int
deriving DecidableEq

/-- NewHand (hand.go lines 49-61): empty hand, active, no bet. -/
def newHand : Hand :=
  { cards := [], isSplit := false, isActive := true, isStood := false,
    isSurrendered := false, actions := [], bet := 0, winnings := 0 }

/-- recordAction (hand.go lines 85-94): append an entry to the log. -/
def recordAction (h : Hand) (t : ActionType) (card : Option Card) (details : String) : Hand :=
  { h with actions := h.actions ++ [{ type := t, card := card, details := details }] }

/-- AddCardWithAction (hand.go lines 79-83). -/
def addCardWithAction (h : Hand) (c : Card) (t : ActionType) (details : String) : Hand :=
  recordAction { h with cards := h.cards ++ [c] } t (some c) details

/-- Hit (hand.go lines 312-316). -/
def handHit (h : Hand) (c : Card) : Hand :=
  addCardWithAction h c ActionType.hit ("player hit")

/-- DealCard (hand.go lines 318-321). -/
def handDealCard (h : Hand) (c : Card) : Hand :=
  addCardWithAction h c ActionType.deal ("initial deal")

/-- Stand (hand.go lines 328-333). -/
def handStand (h : Hand) : Hand :=
  recordAction { h with isStood := true, isActive := false } ActionType.stand none ("")

/-- IsBusted (hand.go lines 226-229). -/
def isBusted (h : Hand) : Bool :=
  decide (21 < handValue h.cards)

/-- IsBlackjack (hand.go lines 231-234). -/
def isBlackjack (h : Hand) : Bool :=
  decide (h.cards.length = 2) && decide (handValue h.cards = 21) && !h.isSplit

/-- The accumulation loop of IsSoft (hand.go lines 236-255): total with
every Ace counted as 11, and whether an Ace is present. -/
def softCardStep (acc : Int × Bool) (c : Card) : Int × Bool :=
  match c.rank with
  | Rank.jack => (acc.1 + 10, acc.2)
  | Rank.queen => (acc.1 + 10, acc.2)
  | Rank.king => (acc.1 + 10, acc.2)
  | Rank.ace => (acc.1 + 11, true)
  | r => (acc.1 + numericValue r, acc.2)

/-- IsSoft (hand.go lines 236-255): an Ace is present and the total
with every Ace counted as 11 is at most 21. -/
def isSoft (h : Hand) : Bool :=
  let acc := h.cards.foldl softCardStep (0, false)
  acc.2 && decide (acc.1 ≤ 21)

/-- Dealer.ShouldHit (dealer source lines 45-66), a function of the
dealer's single hand. -/
def shouldHit (h : Hand) : Bool :=
  let value := handValue h.cards
  if isBusted h then false
  else if decide (17 ≤ value) && !isSoft h then false
  else if decide (value = 17) && isSoft h then true
  else if decide (18 ≤ value) then false
  else decide (value ≤ 16)

/-- GameResult (game.go lines 404-414). -/
inductive GameResult where
  | playerWin
  | dealerWin
  | push
  | playerBlackjack
  | dealerBlackjack
deriving DecidableEq

/-- Game.EvaluateHand (game.go lines 724-751), as a function of the
player's hand and the dealer's hand. -/
def evaluateHand (playerHand dealerHand : Hand) : GameResult :=
  let playerBlackjack := isBlackjack playerHand
  let dealerBlackjack := isBlackjack dealerHand
  let playerValue := handValue playerHand.cards
  let dealerValue := handValue dealerHand.cards
  if playerBlackjack && dealerBlackjack then GameResult.push
  else if playerBlackjack then GameResult.playerBlackjack
  else if dealerBlackjack then GameResult.dealerBlackjack
  else if isBusted playerHand then GameResult.dealerWin
  else if isBusted dealerHand then GameResult.playerWin
  else if decide (dealerValue < playerValue) then GameResult.playerWin
  else if decide (playerValue < dealerValue) then GameResult.dealerWin
  else GameResult.push

/-- Hand.WinBet (hand.go lines 207-213).  Go computes
`winnings := int(float64(bet) * multiplier)`; the multipliers the game
uses (1.0 for a win, 1.5 for blackjack) are dyadic rationals whose
float64 products with any bet in range are exact, so the computation is
modelled exactly as the numerator/denominator pair (mulNum, mulDen)
with Go's toward-zero integer truncation (Int.tdiv).  Returns the
updated hand and the owner's updated chip balance. -/
def winBet (h : Hand) (chips : Int) (mulNum mulDen : Int) : Hand × Int :=
  let winnings := Int.tdiv (h.bet * mulNum) mulDen
  let totalPayout := h.bet + winnings
  ({ h with winnings := winnings }, chips + totalPayout)

/-- Hand.LoseBet (hand.go lines 215-218): chips were removed when the
bet was placed, so only the loss is recorded. -/
def loseBet (h : Hand) : Hand :=
  { h with winnings := -h.bet }

/-- Hand.PushBet (hand.go lines 220-224): the bet returns to the chips. -/
def pushBet (h : Hand) (chips : Int) : Hand × Int :=
  ({ h with winnings := 0 }, chips + h.bet)

/-- Hand.CanSurrender (hand.go lines 428-431); numHands is the length
of the owning player's hand list, read through the hand's back
pointer in Go. -/
def canSurrender (numHands : Nat) (h : Hand) : Bool :=
  decide (numHands = 1) && decide (h.cards.length = 2) && !h.isStood && !(isBusted h)

/-- Hand.Surrender (hand.go lines 433-441): credit half the bet back,
record the loss of the half bet, log the action, stand the hand.  (The
bet field itself is left untouched by this code.)  Returns the updated
hand and the owner's updated chip balance. -/
def handSurrender (h : Hand) (chips : Int) : Hand × Int :=
  let currentBet := h.bet
  let halfBet := Int.tdiv currentBet 2
  let chips2 := chips + halfBet
  let h2 := { h with winnings := -halfBet }
  let h3 := recordAction h2 ActionType.surrender none
    ("received " ++ toString halfBet ++ " chips back")
  (handStand h3, chips2)

/-- Player (player source lines 11-17): name, hands, the default chip
manager's balance, active flag, current-hand cursor. -/
structure Player where
  name : String
  hands : List Hand
  chips : Int
  active : Bool
  currentHandIdx : Nat
deriving DecidableEq

/-- NewPlayer with the default chip manager and a starting balance. -/
def newPlayer (name : String) (chips : Int) : Player :=
  { name := name, hands := [newHand], chips := chips, active := true,
    currentHandIdx := 0 }

/-- CurrentHand: the hand under the cursor.  Go indexes the slice
directly; the cursor is kept in range by every operation, and an
out-of-range read would panic, so the default value stands in only for
unreachable states. -/
def currentHand (p : Player) : Hand :=
  p.hands.getD p.currentHandIdx newHand

/-- Replace the hand under the cursor (Go mutates it in place through
the returned pointer). -/
def setCurrentHand (p : Player) (h : Hand) : Player :=
  { p with hands := p.hands.set p.currentHandIdx h }

/-- Hand.PlaceBet (hand.go lines 193-205) on the current hand: reject
non-positive amounts and amounts above the balance, otherwise set the
bet and deduct the chips. -/
def placeBet (p : Player) (amount : Int) : Except String Player :=
  if amount ≤ 0 then Except.error ("bet must be positive")
  else if p.chips < amount then
    Except.error ("insufficient chips: have " ++ toString p.chips
      ++ ", need " ++ toString amount)
  else
    Except.ok { setCurrentHand p { currentHand p with bet := amount } with
      chips := p.chips - amount }

/-- Fallback card for List.getD; Go indexes cards[0] and cards[1]
directly, guarded by a two-card length check. -/
def defaultCard : Card := ⟨Rank.two, Suit.clubs⟩

/-- Hand.CanSplit (hand.go lines 364-372); the hand list length and the
chip balance are read through the hand's back pointer in Go. -/
def handCanSplit (numHands : Nat) (chips : Int) (h : Hand) : Bool :=
  if decide (4 ≤ numHands) || decide (h.cards.length ≠ 2) || decide (chips < h.bet) then
    false
  else
    decide ((h.cards.getD 0 defaultCard).rank = (h.cards.getD 1 defaultCard).rank)

/-- newSplitHand (hand.go lines 63-70): a fresh hand marked as split,
dealt the carried-over card. -/
def newSplitHand (c : Card) : Hand :=
  addCardWithAction { newHand with isSplit := true } c ActionType.deal ("split card")

/-- Hand.splitHand (hand.go lines 404-421): keep the first card and the
split mark on the original hand and move the second card into a new
split hand; nothing happens when CanSplit fails. -/
def splitHandCore (numHands : Nat) (chips : Int) (h : Hand) : Option (Hand × Hand) :=
  if !(handCanSplit numHands chips h) then none
  else
    let secondCard := h.cards.getD 1 defaultCard
    let h2 := { h with cards := h.cards.take 1, isSplit := true }
    some (h2, newSplitHand secondCard)

/-- Player.CanSplit (player source lines 179-183) for the current hand:
fewer than four hands, the hand itself splittable, and enough chips to
duplicate the bet. -/
def playerCanSplit (p : Player) : Bool :=
  decide (p.hands.length < 4)
    && handCanSplit p.hands.length p.chips (currentHand p)
    && decide ((currentHand p).bet ≤ p.chips)

/-- Player.Split (player source lines 149-177) on the current hand:
log the split, move the second card into a sibling hand carrying the
same bet, append it to the hand list, and deduct the duplicated bet. -/
def playerSplit (p : Player) : Except String Player :=
  if !(playerCanSplit p) then Except.error ("cannot split")
  else
    let n := p.hands.length + 1
    let h := recordAction (currentHand p) ActionType.split none
      ("split into " ++ toString n ++ " hands")
    match splitHandCore p.hands.length p.chips h with
    | none => Except.error ("split failed")
    | some (h2, newH) =>
      let currentBet := h2.bet
      let newH2 := recordAction { newH with bet := currentBet } ActionType.split none
        ("created from split")
      let p2 := setCurrentHand p h2
      Except.ok { p2 with hands := p2.hands ++ [newH2], chips := p2.chips - currentBet }

/-- Player.CanDoubleDown (player source lines 128-130) for the current
hand. -/
def playerCanDoubleDown (p : Player) : Bool :=
  decide ((currentHand p).cards.length = 2) && decide ((currentHand p).bet ≤ p.chips)

/-- Player.DoubleDown (player source lines 133-147) on the current
hand: deduct a second bet, double the hand's bet, log the action. -/
def playerDoubleDown (p : Player) : Except String Player :=
  if !(playerCanDoubleDown p) then Except.error ("cannot double down")
  else
    let currentBet := (currentHand p).bet
    let newBet := currentBet * 2
    let h := recordAction { currentHand p with bet := newBet } ActionType.double none
      ("bet increased from " ++ toString currentBet ++ " to " ++ toString newBet)
    Except.ok { setCurrentHand p h with chips := p.chips - currentBet }

/-- A hand that is still playable in the sense of
Player.MoveToNextActiveHand: neither busted nor blackjack nor stood. -/
def playableHand (h : Hand) : Bool :=
  !(isBusted h) && !(isBlackjack h) && !h.isStood

/-- Player.MoveToNextActiveHand (player source lines 248-256): the
smallest index past the cursor holding a playable hand, if any. -/
def nextActiveIdx (p : Player) : Option Nat :=
  (List.range p.hands.length).find? (fun j =>
    decide (p.currentHandIdx < j) && playableHand (p.hands.getD j newHand))

/-- Advance the cursor per MoveToNextActiveHand, or report failure the
way the callers in game.go use it (they then deactivate the player). -/
def moveToNextActiveHand (p : Player) : Player × Bool :=
  match nextActiveIdx p with
  | some j => ({ p with currentHandIdx := j }, true)
  | none => (p, false)

/-- The ranks of one standard deck, in the order the deck package
enumerates them. -/
def standardRanks : List Rank :=
  [Rank.two, Rank.three, Rank.four, Rank.five, Rank.six, Rank.seven,
   Rank.eight, Rank.nine, Rank.ten, Rank.jack, Rank.queen, Rank.king, Rank.ace]

/-- The suits of one standard deck, in the order the deck package
enumerates them. -/
def standardSuits : List Suit :=
  [Suit.clubs, Suit.diamonds, Suit.hearts, Suit.spades]

/-- One standard 52-card deck, built suit-major like deck.New. -/
def standardDeck : List Card :=
  standardSuits.foldr (fun s acc => standardRanks.map (fun r => ⟨r, s⟩) ++ acc) []

/-- Modelled from the spec: the external cards.NewShoe builds the pool
as numDecks × 52 fresh cards (spec section 4.4, "builds pool =
numDecks × 52 fresh cards"); the construction of the card multiset
itself lives in the external cards module. -/
def freshPool : Nat → List Card
  | 0 => []
  | n + 1 => standardDeck ++ freshPool n

/-- Modelled from the spec: cards.Shoe.Shuffle permutes the pool
uniformly at random (spec section 4.4, "shuffles uniformly at
random").  Every property claimed of the shoe depends only on the
pool's size, which any permutation preserves, so the permutation is
modelled as the identity. -/
def shufflePool (cs : List Card) : List Card := cs

/-- Shoe (shoe.go lines 13-18). -/
structure Shoe where
  cards : List Card
  numDecks : Nat
  cutCard : Nat
deriving DecidableEq

/-- Shoe.Reshuffle (shoe.go lines 54-61): replace the pool with a fresh
shuffled one and recompute the cut-card position.  Go computes the cut
as `int(float64(len(s.cards)) * CutCardPenetration)` with
CutCardPenetration = 0.75; for any pool size below 2^51 the float64
product is exact up to its fractional part, so the truncation equals
the integer computation len * 3 / 4. -/
def reshuffle (s : Shoe) : Shoe :=
  let pool := shufflePool (freshPool s.numDecks)
  { s with cards := pool, cutCard := pool.length * 3 / 4 }

/-- NewShoe (shoe.go lines 20-28): clamp the deck count up to at least
one, then reshuffle. -/
def newShoe (numDecks : Nat) : Shoe :=
  reshuffle { cards := [], numDecks := max 1 numDecks, cutCard := 0 }

/-- Shoe.IsEmpty (shoe.go lines 39-42). -/
def shoeIsEmpty (s : Shoe) : Bool :=
  decide (s.cards.length = 0)

/-- Shoe.NeedsReshuffle (shoe.go lines 44-47): the cut card has been
reached once the remaining pool is no larger than total − cut. -/
def needsReshuffle (s : Shoe) : Bool :=
  decide ((s.cards.length : Int) ≤ 52 * s.numDecks - s.cutCard)

/-- Shoe.Draw (shoe.go lines 30-37): error on an empty pool, otherwise
remove and return the front card. -/
def shoeDraw (s : Shoe) : Except String (Card × Shoe) :=
  match s.cards with
  | [] => Except.error ("shoe is empty")
  | c :: rest => Except.ok (c, { s with cards := rest })

/-- Game (game.go lines 434-440).  The dealer owns exactly one hand,
embedded directly. -/
structure Game where
  dealerHand : Hand
  players : List Player
  shoe : Shoe
  round : Int
deriving DecidableEq

/-- Outcome of a Go method that may return an error or crash: ok,
a returned error, or a runtime panic (nil-pointer dereference). -/
inductive GoResult (α : Type) where
  | ok (a : α)
  | err (msg : String)
  | panicked
deriving DecidableEq

/-- Game.GetPlayer (game.go lines 458-466) as the index of the first
player with the given name. -/
def getPlayerIdx (g : Game) (name : String) : Option Nat :=
  g.players.findIdx? (fun p => p.name == name)

/-- Game.PlayerSurrender (game.go lines 682-708).  The Go code runs
`hand := player.CurrentHand()` BEFORE its nil check on the player, so a
name that matches no player dereferences a nil pointer and panics
instead of reaching the "player not found" return. -/
def gamePlayerSurrender (g : Game) (name : String) : GoResult Game :=
  match getPlayerIdx g name with
  | none => GoResult.panicked
  | some i =>
    let p := g.players.getD i (newPlayer ("") 0)
    if !p.active then GoResult.err ("player " ++ name ++ " is not active")
    else if !(canSurrender p.hands.length (currentHand p)) then
      GoResult.err ("player " ++ name ++ " cannot surrender at this time")
    else
      let r := handSurrender (currentHand p) p.chips
      let p2 := { setCurrentHand p r.1 with chips := r.2 }
      let m := moveToNextActiveHand p2
      let p3 := if m.2 then m.1 else { m.1 with active := false }
      GoResult.ok { g with players := g.players.set i p3 }

/-- The per-hand settlement step inside Game.PayoutResults (game.go
lines 753-776): hands with no bet are skipped, the rest are evaluated
against the dealer and settled with WinBet(1.0) / WinBet(1.5) /
PushBet / LoseBet. -/
def settleHand (dealerHand : Hand) (h : Hand) (chips : Int) : Hand × Int :=
  if h.bet == 0 then (h, chips)
  else
    match evaluateHand h dealerHand with
    | GameResult.playerWin => winBet h chips 1 1
    | GameResult.playerBlackjack => winBet h chips 3 2
    | GameResult.push => pushBet h chips
    | GameResult.dealerWin => (loseBet h, chips)
    | GameResult.dealerBlackjack => (loseBet h, chips)

/-- Game.PayoutResults restricted to one player: every hand is settled
in order, threading the chip balance. -/
def payoutPlayer (dealerHand : Hand) (p : Player) : Player :=
  let r := p.hands.foldl
    (fun (acc : List Hand × Int) h =>
      let s := settleHand dealerHand h acc.2
      (acc.1 ++ [s.1], s.2))
    ([], p.chips)
  { p with hands := r.1, chips := r.2 }

/-- Game.PayoutResults (game.go lines 753-776): every player, every
hand. -/
def payoutResults (g : Game) : Game :=
  { g with players := g.players.map (payoutPlayer g.dealerHand) }

/-- The betting operations of one player in one round, as driven by the
orchestrator and the CLI. -/
inductive PlayerOp where
  | placeBetOp (amount : Int)
  | hitOp (c : Card)
  | standOp
  | doubleDownOp
  | splitOp
  | surrenderOp
deriving DecidableEq

/-- Game.PlayerStand (game.go lines 659-680), restricted to the named
player: stand the current hand, then advance to the next active hand or
deactivate. -/
def playerStandStep (p : Player) : Player :=
  let p2 := setCurrentHand p (handStand (currentHand p))
  let m := moveToNextActiveHand p2
  if m.2 then m.1 else { m.1 with active := false }

/-- Game.PlayerSurrender (game.go lines 682-708), restricted to the
named player; when the precondition fails the Go method returns an
error and leaves the player untouched. -/
def playerSurrenderStep (p : Player) : Player :=
  if !(canSurrender p.hands.length (currentHand p)) then p
  else
    let r := handSurrender (currentHand p) p.chips
    let p2 := { setCurrentHand p r.1 with chips := r.2 }
    let m := moveToNextActiveHand p2
    if m.2 then m.1 else { m.1 with active := false }

/-- Apply one operation; a Go error return leaves the player's state
unchanged. -/
def applyOp (p : Player) (op : PlayerOp) : Player :=
  match op with
  | PlayerOp.placeBetOp a =>
    match placeBet p a with
    | Except.ok q => q
    | Except.error _ => p
  | PlayerOp.hitOp c => setCurrentHand p (handHit (currentHand p) c)
  | PlayerOp.standOp => playerStandStep p
  | PlayerOp.doubleDownOp =>
    match playerDoubleDown p with
    | Except.ok q => q
    | Except.error _ => p
  | PlayerOp.splitOp =>
    match playerSplit p with
    | Except.ok q => q
    | Except.error _ => p
  | PlayerOp.surrenderOp => playerSurrenderStep p

/-- Run a whole sequence of operations. -/
def runOps (p : Player) (ops : List PlayerOp) : Player :=
  ops.foldl applyOp p

/-- A player already holding four hands (each a splittable pair of
eights with an affordable bet, so only the four-hand cap blocks). -/
def c7Hand8s : Hand :=
  { newHand with cards := [⟨Rank.eight, Suit.spades⟩, ⟨Rank.eight, Suit.hearts⟩], bet := 10 }

/-- Four-hand player used to exercise the split cap. -/
def c7Player4 : Player :=
  { name := "Frank", hands := [c7Hand8s, c7Hand8s, c7Hand8s, c7Hand8s],
    chips := 1000, active := true, currentHandIdx := 0 }

/-- Natural blackjack: Ace and King. -/
def c4PlayerBJ : Hand :=
  { newHand with cards := [⟨Rank.ace, Suit.hearts⟩, ⟨Rank.king, Suit.spades⟩] }

/-- Dealer 19. -/
def c4Dealer19 : Hand :=
  { newHand with cards := [⟨Rank.ten, Suit.hearts⟩, ⟨Rank.nine, Suit.diamonds⟩] }

/-- Busted 25. -/
def c4Busted : Hand :=
  { newHand with cards := [⟨Rank.ten, Suit.hearts⟩, ⟨Rank.ten, Suit.spades⟩,
    ⟨Rank.five, Suit.diamonds⟩] }

/-- Player 20 of three cards (so not a blackjack). -/
def c4Player20 : Hand :=
  { newHand with cards := [⟨Rank.ten, Suit.clubs⟩, ⟨Rank.five, Suit.spades⟩,
    ⟨Rank.five, Suit.hearts⟩] }

/-- The claim's own parenthetical reading of softness, stated for
comparison with the implementation: "no Ace countable as 11 without
busting" negated, i.e. some Ace is present and counting one Ace as 11
(and every other Ace as 1) stays within 21. -/
def softPerSpec (cs : List Card) : Bool :=
  decide (0 < numAces cs) && decide (sumAcesLow cs + 10 ≤ 21)

/-- Dealer hand Ace, Ace, five: value 17 with one Ace counted as 11. -/
def dealerSoft17TwoAces : Hand :=
  { newHand with cards := [⟨Rank.ace, Suit.spades⟩, ⟨Rank.ace, Suit.hearts⟩,
    ⟨Rank.five, Suit.diamonds⟩] }

/-- Busted dealer hand (25). -/
def c5Busted : Hand :=
  { newHand with cards := [⟨Rank.ten, Suit.hearts⟩, ⟨Rank.ten, Suit.spades⟩,
    ⟨Rank.five, Suit.diamonds⟩] }

/-- Hard 17. -/
def c5Hard17 : Hand :=
  { newHand with cards := [⟨Rank.ten, Suit.hearts⟩, ⟨Rank.seven, Suit.spades⟩] }

/-- Soft 17 (Ace and six). -/
def c5Soft17 : Hand :=
  { newHand with cards := [⟨Rank.ace, Suit.hearts⟩, ⟨Rank.six, Suit.spades⟩] }

/-- 18. -/
def c5Hand18 : Hand :=
  { newHand with cards := [⟨Rank.ten, Suit.hearts⟩, ⟨Rank.eight, Suit.spades⟩] }

/-- 16. -/
def c5Hand16 : Hand :=
  { newHand with cards := [⟨Rank.ten, Suit.hearts⟩, ⟨Rank.six, Suit.spades⟩] }

/-- A split hand that reached 21 with two cards: Ace and King after
splitting Aces. -/
def c6SplitTwentyOne : Hand :=
  { newHand with
    cards := [⟨Rank.ace, Suit.spades⟩, ⟨Rank.king, Suit.hearts⟩]
    isSplit := true }

/-- A pair of eights about to be split. -/
def c6PairHand : Hand :=
  { newHand with
    cards := [⟨Rank.eight, Suit.spades⟩, ⟨Rank.eight, Suit.hearts⟩]
    bet := 50 }

/-- Hand with the odd bet 101 at risk. -/
def c10Hand : Hand := { newHand with bet := 0 }

/-- Ten and six, a surrenderable 16 with a bet of 100 at risk. -/
def c3Hand : Hand :=
  { newHand with
    cards := [⟨Rank.ten, Suit.spades⟩, ⟨Rank.six, Suit.hearts⟩]
    bet := 100 }

/-- Alice with 1000 chips, dealt ten-six. -/
def c2P0 : Player := newPlayer ("Alice") 1000

/-- After the first dealt card. -/
def c2P1 : Player :=
  setCurrentHand c2P0 (handDealCard (currentHand c2P0) ⟨Rank.ten, Suit.spades⟩)

/-- After the second dealt card. -/
def c2P2 : Player :=
  setCurrentHand c2P1 (handDealCard (currentHand c2P1) ⟨Rank.six, Suit.hearts⟩)

/-- After betting 100 (the bet always succeeds here: 0 < 100 ≤ 1000). -/
def c2P3 : Player := (placeBet c2P2 100).toOption.getD c2P2

/-- Dealer busts with 24. -/
def c2Dealer : Hand :=
  { newHand with cards := [⟨Rank.ten, Suit.hearts⟩, ⟨Rank.nine, Suit.diamonds⟩,
    ⟨Rank.five, Suit.clubs⟩] }

/-- The round state before Alice surrenders. -/
def c2Game : Game :=
  { dealerHand := c2Dealer, players := [c2P3], shoe := newShoe 1, round := 1 }

/-- The round state after Alice surrenders through the orchestrator. -/
def c2AfterSurrender : Game :=
  match gamePlayerSurrender c2Game ("Alice") with
  | GoResult.ok g => g
  | GoResult.err _ => c2Game
  | GoResult.panicked => c2Game

/-- A game with no players, as in the repository's own test
TestGamePlayerSurrenderInvalidPlayer (game := New(1), nobody added). -/
def c8Game : Game :=
  { dealerHand := newHand, players := [], shoe := newShoe 1, round := 0 }

theorem foldl_addCardValue (cs : List Card) : ∀ acc : Int × Nat,
    cs.foldl addCardValue acc = (acc.1 + sumAcesHigh cs, acc.2 + numAces cs) := by
  induction cs with
  | nil =>
    intro acc
    simp [sumAcesHigh, numAces]
  | cons c cs ih =>
    intro acc
    rw [List.foldl_cons, ih]
    have h1 : sumAcesHigh (c :: cs) = highCardValue c.rank + sumAcesHigh cs := by
      simp [sumAcesHigh]
    have h2 : (numAces (c :: cs) : Int)
        = (if c.rank == Rank.ace then 1 else 0) + numAces cs := by
      simp only [numAces, List.countP_cons]
      split <;> push_cast <;> ring
    refine Prod.ext ?_ ?_
    · rw [h1]
      cases hc : c.rank <;>
        simp [addCardValue, highCardValue, numericValue, hc] <;> ring
    · have h2n : numAces (c :: cs)
          = numAces cs + (if c.rank == Rank.ace then 1 else 0) := by
        simp [numAces, List.countP_cons]
      rw [h2n]
      cases hc : c.rank <;> simp [addCardValue, hc] <;> omega

theorem valueAndAces_eq (cs : List Card) :
    valueAndAces cs = (sumAcesHigh cs, numAces cs) := by
  have h := foldl_addCardValue cs (0, 0)
  simpa [valueAndAces] using h

theorem sumAcesHigh_eq_low_add (cs : List Card) :
    sumAcesHigh cs = sumAcesLow cs + 10 * (numAces cs : Int) := by
  induction cs with
  | nil => simp [sumAcesHigh, sumAcesLow, numAces]
  | cons c cs ih =>
    have hc : (numAces (c :: cs) : Int)
        = numAces cs + (if c.rank == Rank.ace then 1 else 0) := by
      simp only [numAces, List.countP_cons]
      split <;> push_cast <;> ring
    have hh : sumAcesHigh (c :: cs) = highCardValue c.rank + sumAcesHigh cs := by
      simp [sumAcesHigh]
    have hl : sumAcesLow (c :: cs) = lowCardValue c.rank + sumAcesLow cs := by
      simp [sumAcesLow]
    rw [hh, hl, ih, hc]
    cases hr : c.rank <;>
      simp [highCardValue, lowCardValue, hr] <;> ring

/-- Behaviour of the Ace-adjustment loop started at the all-Aces-high
total m + 10a (m the all-Aces-low total, a the Ace count): the result
stays within the interval, is itself an achievable total, is the
largest achievable total not exceeding 21 when m ≤ 21, and is m when
even m exceeds 21. -/
theorem adjustForAces_spec (m : Int) : ∀ a : Nat,
    (m ≤ adjustForAces a (m + 10 * a) ∧ adjustForAces a (m + 10 * a) ≤ m + 10 * a)
    ∧ (∃ k : Nat, k ≤ a ∧ adjustForAces a (m + 10 * a) = m + 10 * k)
    ∧ (m ≤ 21 → adjustForAces a (m + 10 * a) ≤ 21)
    ∧ (∀ k : Nat, k ≤ a → m + 10 * k ≤ 21 → m + 10 * k ≤ adjustForAces a (m + 10 * a))
    ∧ (21 < m → adjustForAces a (m + 10 * a) = m) := by
  intro a
  induction a with
  | zero =>
    simp only [Nat.cast_zero, mul_zero, add_zero, adjustForAces]
    exact ⟨⟨le_refl m, le_refl m⟩, ⟨0, le_refl 0, by simp⟩, fun h => h,
      fun k hk _ => by omega, fun _ => by trivial⟩
  | succ a ih =>
    have hstep : adjustForAces (a + 1) (m + 10 * (a + 1 : Nat))
        = if 21 < m + 10 * (a + 1 : Nat) then adjustForAces a (m + 10 * a)
          else m + 10 * (a + 1 : Nat) := by
      have harg : m + 10 * ((a : Int) + 1) - 10 = m + 10 * a := by ring
      simp only [adjustForAces]
      push_cast
      rw [harg]
    by_cases hgt : 21 < m + 10 * ((a : Nat) + 1 : Nat)
    · rw [hstep, if_pos (by push_cast at hgt ⊢; omega)]
      obtain ⟨⟨hlo, hhi⟩, ⟨k, hk, hkeq⟩, h21, hmax, hbig⟩ := ih
      refine ⟨⟨hlo, by push_cast at *; omega⟩, ⟨k, by omega, hkeq⟩, h21, ?_, hbig⟩
      intro j hj hj21
      rcases Nat.lt_or_ge j (a + 1) with hj' | hj'
      · exact hmax j (by omega) hj21
      · have : j = a + 1 := by omega
        subst this
        push_cast at hgt hj21 ⊢
        omega
    · rw [hstep, if_neg (by push_cast at hgt ⊢; omega)]
      push_cast at hgt
      refine ⟨⟨by push_cast; omega, le_refl _⟩, ⟨a + 1, le_refl _, by push_cast; ring⟩,
        ?_, ?_, ?_⟩
      · intro _; push_cast; omega
      · intro k hk _; push_cast; omega
      · intro hm; push_cast; omega

/-- C1: Hand.Value always lands in the interval between the all-Aces-low
and all-Aces-high sums, is an achievable total (some Aces as 11, the
rest as 1), is the largest achievable total ≤ 21 whenever one exists
(the all-Aces-low sum is ≤ 21), equals the all-Aces-low sum when every
choice busts, and depends only on the multiset of cards. -/
theorem handValue_correct (cs : List Card) :
    (sumAcesLow cs ≤ handValue cs ∧ handValue cs ≤ sumAcesHigh cs)
    ∧ (∃ k : Nat, k ≤ numAces cs ∧ handValue cs = sumAcesLow cs + 10 * k)
    ∧ (sumAcesLow cs ≤ 21 →
        handValue cs ≤ 21
        ∧ ∀ k : Nat, k ≤ numAces cs → sumAcesLow cs + 10 * k ≤ 21 →
            sumAcesLow cs + 10 * k ≤ handValue cs)
    ∧ (21 < sumAcesLow cs → handValue cs = sumAcesLow cs)
    ∧ (∀ cs2 : List Card, List.Perm cs cs2 → handValue cs = handValue cs2) := by
  have hv : handValue cs
      = adjustForAces (numAces cs) (sumAcesLow cs + 10 * (numAces cs : Int)) := by
    rw [handValue, valueAndAces_eq, ← sumAcesHigh_eq_low_add]
  obtain ⟨⟨hlo, hhi⟩, hach, h21, hmax, hbig⟩ :=
    adjustForAces_spec (sumAcesLow cs) (numAces cs)
  refine ⟨⟨by rw [hv]; exact hlo, by rw [hv, sumAcesHigh_eq_low_add]; exact hhi⟩,
    by rw [hv]; exact hach,
    fun hle => ⟨by rw [hv]; exact h21 hle, fun k hk hk21 => by rw [hv]; exact hmax k hk hk21⟩,
    fun hgt => by rw [hv]; exact hbig hgt, ?_⟩
  intro cs2 hperm
  have hn : numAces cs = numAces cs2 := hperm.countP_eq _
  have hs : sumAcesHigh cs = sumAcesHigh cs2 := (hperm.map _).sum_eq
  rw [handValue, handValue, valueAndAces_eq, valueAndAces_eq, hn, hs]

theorem handValue_correct_witness :
    handValue c1HandA ≤ 21
    ∧ sumAcesLow c1HandA + 10 * 0 ≤ handValue c1HandA
    ∧ handValue c1HandB = sumAcesLow c1HandB
    ∧ handValue c1HandA = handValue c1HandAPerm :=
  ⟨((handValue_correct c1HandA).2.2.1 (by decide)).1,
   ((handValue_correct c1HandA).2.2.1 (by decide)).2 0 (by decide) (by decide),
   (handValue_correct c1HandB).2.2.2.1 (by decide),
   (handValue_correct c1HandA).2.2.2.2 c1HandAPerm (by decide)⟩

theorem setCurrentHand_length (p : Player) (h : Hand) :
    (setCurrentHand p h).hands.length = p.hands.length := by
  simp [setCurrentHand]

theorem moveToNextActiveHand_hands (p : Player) :
    (moveToNextActiveHand p).1.hands = p.hands := by
  rw [moveToNextActiveHand]
  cases nextActiveIdx p <;> rfl

theorem placeBet_ok_length (p : Player) (a : Int) (q : Player)
    (hq : placeBet p a = Except.ok q) : q.hands.length = p.hands.length := by
  rw [placeBet] at hq
  split at hq
  · exact absurd hq (by simp)
  · split at hq
    · exact absurd hq (by simp)
    · cases hq
      simp [setCurrentHand]

theorem playerDoubleDown_ok_length (p : Player) (q : Player)
    (hq : playerDoubleDown p = Except.ok q) : q.hands.length = p.hands.length := by
  rw [playerDoubleDown] at hq
  split at hq
  · exact absurd hq (by simp)
  · cases hq
    simp [setCurrentHand]

theorem playerSplit_ok_length (p : Player) (q : Player)
    (hq : playerSplit p = Except.ok q) :
    p.hands.length < 4 ∧ q.hands.length = p.hands.length + 1 := by
  rw [playerSplit] at hq
  split at hq
  · exact absurd hq (by simp)
  · rename_i hcan
    have hlt : p.hands.length < 4 := by
      have : playerCanSplit p = true := by
        revert hcan
        cases playerCanSplit p <;> simp
      rw [playerCanSplit] at this
      simp only [Bool.and_eq_true, decide_eq_true_eq] at this
      exact this.1.1
    refine ⟨hlt, ?_⟩
    rcases hs : splitHandCore p.hands.length p.chips
        (recordAction (currentHand p) ActionType.split none
          ("split into " ++ toString (p.hands.length + 1) ++ " hands")) with _ | ⟨h2, newH⟩
    · simp only [hs] at hq
      exact Except.noConfusion hq
    · simp only [hs] at hq
      rw [Except.ok.injEq] at hq
      subst hq
      simp [setCurrentHand]

theorem playerStandStep_length (p : Player) :
    (playerStandStep p).hands.length = p.hands.length := by
  rw [playerStandStep]
  dsimp only
  split <;> rw [moveToNextActiveHand_hands] <;> simp [setCurrentHand]

theorem playerSurrenderStep_length (p : Player) :
    (playerSurrenderStep p).hands.length = p.hands.length := by
  rw [playerSurrenderStep]
  by_cases hc : (!canSurrender p.hands.length (currentHand p)) = true
  · rw [if_pos hc]
  · rw [if_neg hc]
    dsimp only
    split <;> rw [moveToNextActiveHand_hands] <;> simp [setCurrentHand]

theorem applyOp_length_le (p : Player) (op : PlayerOp)
    (hp : p.hands.length ≤ 4) : (applyOp p op).hands.length ≤ 4 := by
  cases op with
  | placeBetOp a =>
    rw [applyOp]
    rcases he : placeBet p a with m | q
    · exact hp
    · show q.hands.length ≤ 4
      rw [placeBet_ok_length p a q he]
      exact hp
  | hitOp c =>
    rw [applyOp, setCurrentHand_length]
    exact hp
  | standOp =>
    rw [applyOp, playerStandStep_length]
    exact hp
  | doubleDownOp =>
    rw [applyOp]
    rcases he : playerDoubleDown p with m | q
    · exact hp
    · show q.hands.length ≤ 4
      rw [playerDoubleDown_ok_length p q he]
      exact hp
  | splitOp =>
    rw [applyOp]
    rcases he : playerSplit p with m | q
    · exact hp
    · show q.hands.length ≤ 4
      obtain ⟨hlt, hlen⟩ := playerSplit_ok_length p q he
      omega
  | surrenderOp =>
    rw [applyOp, playerSurrenderStep_length]
    exact hp

theorem runOps_length_le (ops : List PlayerOp) : ∀ p : Player,
    p.hands.length ≤ 4 → (runOps p ops).hands.length ≤ 4 := by
  induction ops with
  | nil => intro p hp; exact hp
  | cons op ops ih =>
    intro p hp
    rw [runOps, List.foldl_cons]
    exact ih (applyOp p op) (applyOp_length_le p op hp)

/-- C7: starting from a fresh player, no sequence of betting operations
ever leaves more than four hands, and a split attempted with four hands
in play fails with the precondition error and changes nothing. -/
theorem split_fanout_bound (name : String) (chips : Int) (ops : List PlayerOp) :
    (runOps (newPlayer name chips) ops).hands.length ≤ 4
    ∧ (∀ p : Player, p.hands.length = 4 →
        playerSplit p = Except.error ("cannot split") ∧ applyOp p PlayerOp.splitOp = p) := by
  constructor
  · exact runOps_length_le ops _ (by simp [newPlayer])
  · intro p hp
    have hcan : playerCanSplit p = false := by
      rw [playerCanSplit, hp]
      simp
    have herr : playerSplit p = Except.error ("cannot split") := by
      rw [playerSplit, hcan]
      rfl
    refine ⟨herr, ?_⟩
    rw [applyOp, herr]

theorem split_fanout_bound_witness :
    (runOps (newPlayer ("Alice") 1000) [PlayerOp.splitOp]).hands.length ≤ 4
    ∧ playerSplit c7Player4 = Except.error ("cannot split")
    ∧ applyOp c7Player4 PlayerOp.splitOp = c7Player4 :=
  ⟨(split_fanout_bound ("Alice") 1000 [PlayerOp.splitOp]).1,
   ((split_fanout_bound ("Alice") 1000 []).2 c7Player4 (by decide)).1,
   ((split_fanout_bound ("Alice") 1000 []).2 c7Player4 (by decide)).2⟩

/-- C4: EvaluateHand follows the claimed precedence exactly:
both-blackjack push, then player blackjack, then dealer blackjack, then
player bust, then dealer bust, then value comparison with ties pushing. -/
theorem evaluateHand_precedence (ph dh : Hand) :
    (isBlackjack ph = true → isBlackjack dh = true →
      evaluateHand ph dh = GameResult.push)
    ∧ (isBlackjack ph = true → isBlackjack dh = false →
      evaluateHand ph dh = GameResult.playerBlackjack)
    ∧ (isBlackjack ph = false → isBlackjack dh = true →
      evaluateHand ph dh = GameResult.dealerBlackjack)
    ∧ (isBlackjack ph = false → isBlackjack dh = false → isBusted ph = true →
      evaluateHand ph dh = GameResult.dealerWin)
    ∧ (isBlackjack ph = false → isBlackjack dh = false → isBusted ph = false →
      isBusted dh = true → evaluateHand ph dh = GameResult.playerWin)
    ∧ (isBlackjack ph = false → isBlackjack dh = false → isBusted ph = false →
      isBusted dh = false → handValue dh.cards < handValue ph.cards →
      evaluateHand ph dh = GameResult.playerWin)
    ∧ (isBlackjack ph = false → isBlackjack dh = false → isBusted ph = false →
      isBusted dh = false → handValue ph.cards < handValue dh.cards →
      evaluateHand ph dh = GameResult.dealerWin)
    ∧ (isBlackjack ph = false → isBlackjack dh = false → isBusted ph = false →
      isBusted dh = false → handValue ph.cards = handValue dh.cards →
      evaluateHand ph dh = GameResult.push) :=
  ⟨fun h1 h2 => by simp [evaluateHand, h1, h2],
   fun h1 h2 => by simp [evaluateHand, h1, h2],
   fun h1 h2 => by simp [evaluateHand, h1, h2],
   fun h1 h2 h3 => by simp [evaluateHand, h1, h2, h3],
   fun h1 h2 h3 h4 => by simp [evaluateHand, h1, h2, h3, h4],
   fun h1 h2 h3 h4 hlt => by simp [evaluateHand, h1, h2, h3, h4, hlt],
   fun h1 h2 h3 h4 hlt => by
     have hnot : ¬ (handValue dh.cards < handValue ph.cards) := by omega
     simp [evaluateHand, h1, h2, h3, h4, hnot, hlt],
   fun h1 h2 h3 h4 heq => by
     have hnot : ¬ (handValue dh.cards < handValue ph.cards) := by omega
     have hnot2 : ¬ (handValue ph.cards < handValue dh.cards) := by omega
     simp [evaluateHand, h1, h2, h3, h4, hnot, hnot2]⟩

theorem evaluateHand_precedence_witness :
    evaluateHand c4PlayerBJ c4Dealer19 = GameResult.playerBlackjack
    ∧ evaluateHand c4Busted c4Dealer19 = GameResult.dealerWin
    ∧ evaluateHand c4Player20 c4Dealer19 = GameResult.playerWin :=
  ⟨(evaluateHand_precedence c4PlayerBJ c4Dealer19).2.1 (by decide) (by decide),
   (evaluateHand_precedence c4Busted c4Dealer19).2.2.2.1 (by decide) (by decide) (by decide),
   (evaluateHand_precedence c4Player20 c4Dealer19).2.2.2.2.2.1 (by decide) (by decide)
     (by decide) (by decide) (by decide)⟩

/-- C5 counterexample: on Ace-Ace-five the value is 17 and an Ace is
countable as 11 without busting (the claim's definition of soft), yet
ShouldHit stands, because IsSoft computes the total with EVERY Ace as
11 (27 here) and so reports the hand as hard. -/
theorem shouldHit_spec_soft_counterexample :
    handValue dealerSoft17TwoAces.cards = 17
    ∧ softPerSpec dealerSoft17TwoAces.cards = true
    ∧ isSoft dealerSoft17TwoAces = false
    ∧ shouldHit dealerSoft17TwoAces = false := by decide

/-- C5 (amended): the decision table holds with soft read as the
implementation's IsSoft (an Ace present and the total with every Ace
counted as 11 at most 21); repeated calls agree since ShouldHit is a
pure function of the hand. -/
theorem shouldHit_table (h : Hand) :
    (isBusted h = true → shouldHit h = false)
    ∧ (17 ≤ handValue h.cards → isSoft h = false → shouldHit h = false)
    ∧ (handValue h.cards = 17 → isSoft h = true → shouldHit h = true)
    ∧ (18 ≤ handValue h.cards → shouldHit h = false)
    ∧ (handValue h.cards ≤ 16 → shouldHit h = true)
    ∧ shouldHit h = shouldHit h := by
  refine ⟨?_, ?_, ?_, ?_, ?_, rfl⟩
  · intro hb
    simp [shouldHit, hb]
  · intro h17 hsoft
    cases hb : isBusted h <;> simp [shouldHit, hb, hsoft, h17]
  · intro hv hsoft
    have hb : isBusted h = false := by
      simp [isBusted, hv]
    simp [shouldHit, hb, hsoft, hv]
  · intro h18
    have h17 : 17 ≤ handValue h.cards := by omega
    have hne : ¬ (handValue h.cards = 17) := by omega
    cases hb : isBusted h <;> cases hs : isSoft h <;>
      simp [shouldHit, hb, hs, h17, hne, h18]
  · intro h16
    have hb : isBusted h = false := by
      simp only [isBusted, decide_eq_false_iff_not]
      omega
    have h17n : ¬ (17 ≤ handValue h.cards) := by omega
    have hne : ¬ (handValue h.cards = 17) := by omega
    have h18n : ¬ (18 ≤ handValue h.cards) := by omega
    simp [shouldHit, hb, h17n, hne, h18n, h16]

theorem shouldHit_table_witness :
    shouldHit c5Busted = false
    ∧ shouldHit c5Hard17 = false
    ∧ shouldHit c5Soft17 = true
    ∧ shouldHit c5Hand18 = false
    ∧ shouldHit c5Hand16 = true :=
  ⟨(shouldHit_table c5Busted).1 (by decide),
   (shouldHit_table c5Hard17).2.1 (by decide) (by decide),
   (shouldHit_table c5Soft17).2.2.1 (by decide) (by decide),
   (shouldHit_table c5Hand18).2.2.2.1 (by decide),
   (shouldHit_table c5Hand16).2.2.2.2.1 (by decide)⟩

/-- C6: IsBlackjack holds exactly for an unsplit two-card 21; any hand
carrying the split mark is never a blackjack, and splitting marks both
the original hand and the new sibling. -/
theorem isBlackjack_characterisation (h : Hand) :
    (isBlackjack h = true ↔
      (h.cards.length = 2 ∧ handValue h.cards = 21 ∧ h.isSplit = false))
    ∧ (h.isSplit = true → isBlackjack h = false)
    ∧ (∀ (numHands : Nat) (chips : Int) (h1 h2 : Hand),
        splitHandCore numHands chips h = some (h1, h2) →
        h1.isSplit = true ∧ h2.isSplit = true) := by
  refine ⟨?_, ?_, ?_⟩
  · rw [isBlackjack]
    cases hs : h.isSplit <;>
      simp [Bool.and_eq_true, decide_eq_true_eq, hs]
  · intro hs
    rw [isBlackjack, hs]
    simp
  · intro numHands chips h1 h2 hsc
    rw [splitHandCore] at hsc
    split at hsc
    · exact absurd hsc (by simp)
    · simp only [Option.some.injEq, Prod.mk.injEq] at hsc
      obtain ⟨hh1, hh2⟩ := hsc
      constructor
      · rw [← hh1]
      · rw [← hh2]
        rfl

theorem isBlackjack_characterisation_witness :
    isBlackjack c6SplitTwentyOne = false
    ∧ isBlackjack c4PlayerBJ = true
    ∧ ((splitHandCore 1 100 c6PairHand).getD (newHand, newHand)).1.isSplit = true
    ∧ ((splitHandCore 1 100 c6PairHand).getD (newHand, newHand)).2.isSplit = true :=
  ⟨(isBlackjack_characterisation c6SplitTwentyOne).2.1 (by decide),
   (isBlackjack_characterisation c4PlayerBJ).1.mpr (by decide),
   ((isBlackjack_characterisation c6PairHand).2.2 1 100
     ((splitHandCore 1 100 c6PairHand).getD (newHand, newHand)).1
     ((splitHandCore 1 100 c6PairHand).getD (newHand, newHand)).2 (by decide)).1,
   ((isBlackjack_characterisation c6PairHand).2.2 1 100
     ((splitHandCore 1 100 c6PairHand).getD (newHand, newHand)).1
     ((splitHandCore 1 100 c6PairHand).getD (newHand, newHand)).2 (by decide)).2⟩

theorem freshPool_length (n : Nat) : (freshPool n).length = 52 * n := by
  induction n with
  | zero => rfl
  | succ n ih =>
    have hd : standardDeck.length = 52 := rfl
    rw [freshPool, List.length_append, hd, ih]
    ring

/-- C9: NeedsReshuffle fires exactly when the remaining pool has
shrunk to total − cut, and a reshuffle restores a full pool of
numDecks × 52 cards on which NeedsReshuffle is false (the cut card
sits at 75% of a fresh pool, strictly inside it). -/
theorem shoe_reshuffle_policy (n : Nat) (hn : 1 ≤ n) :
    (∀ s : Shoe, needsReshuffle s = true ↔
      (s.cards.length : Int) ≤ 52 * s.numDecks - s.cutCard)
    ∧ (∀ s : Shoe, s.numDecks = n →
      (reshuffle s).cards.length = 52 * n ∧ needsReshuffle (reshuffle s) = false)
    ∧ (newShoe n).cards.length = 52 * n ∧ needsReshuffle (newShoe n) = false := by
  have hcut : ∀ m : Nat, 52 * m * 3 / 4 = 39 * m := by
    intro m
    have h1 : 52 * m * 3 = 4 * (39 * m) := by ring
    rw [h1, Nat.mul_div_cancel_left (39 * m) (by norm_num)]
  have hmain : ∀ s : Shoe, s.numDecks = n →
      (reshuffle s).cards.length = 52 * n ∧ needsReshuffle (reshuffle s) = false := by
    intro s hs
    have hlen : (reshuffle s).cards.length = 52 * n := by
      rw [reshuffle]
      dsimp only [shufflePool]
      rw [freshPool_length, hs]
    refine ⟨hlen, ?_⟩
    have hc : (reshuffle s).cutCard = 39 * n := by
      rw [reshuffle]
      dsimp only [shufflePool]
      rw [freshPool_length, hs, hcut]
    have hnd : (reshuffle s).numDecks = n := by
      rw [reshuffle, hs]
    rw [needsReshuffle, hlen, hc, hnd]
    simp only [decide_eq_false_iff_not]
    push_cast
    omega
  refine ⟨fun s => by rw [needsReshuffle]; simp, hmain, ?_⟩
  have hmax : (max 1 n) = n := Nat.max_eq_right hn
  have h0 := hmain { cards := [], numDecks := max 1 n, cutCard := 0 } (by simpa using hmax)
  exact ⟨h0.1, h0.2⟩

theorem shoe_reshuffle_policy_witness :
    (newShoe 1).cards.length = 52
    ∧ needsReshuffle (newShoe 1) = false
    ∧ needsReshuffle { cards := [], numDecks := 1, cutCard := 39 } = true :=
  ⟨by simpa using (shoe_reshuffle_policy 1 (by decide)).2.2.1,
   (shoe_reshuffle_policy 1 (by decide)).2.2.2,
   ((shoe_reshuffle_policy 1 (by decide)).1
     { cards := [], numDecks := 1, cutCard := 39 }).mpr (by decide)⟩

/-- C10: WinBet pays back bet plus the toward-zero truncation of
bet × multiplier and records that truncation as the winnings; on an odd
bet the 3:2 blackjack multiplier therefore pays (3·bet − 1)/2 rather
than exactly 1.5 × bet, and Surrender returns the rounded-down half
⌊bet/2⌋. -/
theorem winBet_truncation (h : Hand) (chips : Int) :
    (∀ mulNum mulDen : Int,
      (winBet h chips mulNum mulDen).2
          = chips + h.bet + Int.tdiv (h.bet * mulNum) mulDen
        ∧ (winBet h chips mulNum mulDen).1.winnings
          = Int.tdiv (h.bet * mulNum) mulDen)
    ∧ (∀ b : Int, 0 ≤ b → b % 2 = 1 →
      2 * (winBet { h with bet := b } chips 3 2).1.winnings = 3 * b - 1)
    ∧ (∀ b : Int, 0 ≤ b →
      (handSurrender { h with bet := b } chips).2 = chips + Int.tdiv b 2)
    ∧ (∀ b : Int, 0 ≤ b → b % 2 = 1 →
      2 * (handSurrender { h with bet := b } chips).2 = 2 * chips + b - 1) := by
  refine ⟨fun mulNum mulDen => ⟨?_, rfl⟩, ?_, fun b hb => rfl, ?_⟩
  · rw [winBet]
    ring
  · intro b hb ho
    show 2 * Int.tdiv (b * 3) 2 = 3 * b - 1
    rw [Int.tdiv_eq_ediv (by omega) (by omega)]
    omega
  · intro b hb ho
    show 2 * (chips + Int.tdiv b 2) = 2 * chips + b - 1
    rw [Int.tdiv_eq_ediv hb (by omega)]
    omega

theorem winBet_truncation_witness :
    2 * (winBet { c10Hand with bet := 101 } 900 3 2).1.winnings = 3 * 101 - 1
    ∧ (winBet { c10Hand with bet := 101 } 900 3 2).1.winnings = 151
    ∧ (handSurrender { c10Hand with bet := 101 } 900).2 = 900 + Int.tdiv 101 2
    ∧ 2 * (handSurrender { c10Hand with bet := 101 } 900).2 = 2 * 900 + 101 - 1 :=
  ⟨(winBet_truncation c10Hand 900).2.1 101 (by decide) (by decide),
   by decide,
   (winBet_truncation c10Hand 900).2.2.1 101 (by decide),
   (winBet_truncation c10Hand 900).2.2.2 101 (by decide) (by decide)⟩

/-- C3 evidence: Hand.Surrender on a surrenderable two-card hand with
bet 100 and a balance of 900 returns the half bet (chips 950), records
winnings −50, logs the surrender, and stands the hand — but leaves the
hand's bet at 100 instead of zeroing it. -/
theorem handSurrender_keeps_bet :
    canSurrender 1 c3Hand = true
    ∧ (handSurrender c3Hand 900).2 = 950
    ∧ (handSurrender c3Hand 900).1.winnings = -50
    ∧ (handSurrender c3Hand 900).1.isStood = true
    ∧ (handSurrender c3Hand 900).1.isActive = false
    ∧ (handSurrender c3Hand 900).1.actions.map (fun a => a.type)
      = [ActionType.surrender, ActionType.stand]
    ∧ (handSurrender c3Hand 900).1.bet = 100 := by decide

/-- C2 evidence: Alice bets 100 of her 1000 chips on ten-six and
surrenders (chips 950, winnings −50); because Hand.Surrender leaves the
bet at 100, PayoutResults does not skip the surrendered hand: the
dealer has busted, so the hand is settled a second time as a win,
crediting another 200 and overwriting the winnings with +100.  A
single settlement per hand would leave 950 chips. -/
theorem surrendered_hand_settled_again :
    gamePlayerSurrender c2Game ("Alice") = GoResult.ok c2AfterSurrender
    ∧ (c2AfterSurrender.players.getD 0 (newPlayer ("") 0)).chips = 950
    ∧ ((c2AfterSurrender.players.getD 0 (newPlayer ("") 0)).hands.getD 0 newHand).bet = 100
    ∧ ((payoutResults c2AfterSurrender).players.getD 0 (newPlayer ("") 0)).chips = 1150
    ∧ (((payoutResults c2AfterSurrender).players.getD 0 (newPlayer ("") 0)).hands.getD 0
        newHand).winnings = 100 := by decide

/-- C8 evidence: PlayerSurrender with an unknown player name panics (a
nil-pointer dereference: the Go code calls player.CurrentHand() before
its nil check) instead of returning the "player not found" error. -/
theorem playerSurrender_unknown_name_panics :
    gamePlayerSurrender c8Game ("NonexistentPlayer") = GoResult.panicked := rfl


end Blackjack
